import Mathlib

/-!
Shallow embedding of the gypsum molecule-preparation core
(`gypsum/MyMol.py` and `gypsum/Steps/SMILES/DeSaltOrigSmiles.py`).

The chemical-graph engine (rdkit) is out of scope for the repository and is
modelled as a record of opaque functions over an abstract graph type `G`
(`Engine` below).  All control flow, caching sentinels, field updates and
list manipulation of the Python source are embedded faithfully; engine
calls are single fields of `Engine`.  Python exceptions that the source can
actually raise on the modelled paths are made explicit with `Except PyErr`.
Numbers that are floats in Python (energies, RMSD values) are modelled as
rationals; Python's `hash` over the canonical-smiles value is an explicit
function parameter, since CPython's string hash is seed-randomized.
-/

namespace Gypsum

/-- Kinds of Python exceptions that the modelled code paths can raise. -/
inductive PyErr : Type
  /-- `AttributeError`, e.g. calling a method on `None` or on an object
  that does not define it. -/
  | attributeError
  /-- `TypeError`, e.g. `s in None` for the substring test. -/
  | typeError
  /-- `ArgumentError` raised by the engine when handed an invalid graph. -/
  | argumentError
  /-- `KeyError` from a dict lookup. -/
  | keyError
deriving DecidableEq, Inhabited

/-- A lazily-computed cached field.  Python uses the empty string `""` as the
"not yet computed" sentinel for these caches. -/
inductive Cached (α : Type) : Type
  /-- The Python sentinel `""`: not yet computed. -/
  | unset
  /-- A computed, cached value. -/
  | val (a : α)
deriving DecidableEq

/-- The `self.rdkit_mol` field of `MyMol`.  Python stores `""` before the
graph is materialized, `None` after a failed parse/sanitize, and the rdkit
mol object otherwise. -/
inductive RdMol (G : Type) : Type
  /-- The `""` sentinel: graph not yet materialized. -/
  | unset
  /-- Python `None`: the notation could not be turned into a valid graph. -/
  | failed
  /-- A materialized graph. -/
  | mol (g : G)
deriving DecidableEq

/-- The `self.can_smi` field of `MyMol`.  Python stores `""` before the
canonical smiles is computed, `None` when `smiles()` failed to canonicalize,
`False` when the mol-input constructor failed to canonicalize, and the
canonical string otherwise. -/
inductive CanSmi : Type
  /-- The `""` sentinel: not yet computed. -/
  | unset
  /-- Python `None`: `smiles()` caught a canonicalization failure. -/
  | failNone
  /-- Python `False`: `__init__` (mol input) caught a canonicalization
  failure. -/
  | failFalse
  /-- A computed canonical smiles string. -/
  | val (s : String)
deriving DecidableEq

/-- One bond as seen through the engine interface: its index, its bond type
as a double (`GetBondTypeAsDouble`) and whether its stereo descriptor is
`BondStereo.STEREONONE`. -/
structure RBond : Type where
  idx : ℕ
  bondTypeAsDouble : ℚ
  stereoIsNone : Bool
deriving DecidableEq

/-- One atom as seen through the engine interface: its index and atomic
number. -/
structure RAtom : Type where
  idx : ℕ
  atomicNum : ℕ
deriving DecidableEq

/-- The capability set consumed from the chemical-graph engine (rdkit),
over an abstract graph type `G`.  Each field corresponds to one engine
entry point used by the source; `Option` results model calls that can fail
(raise, or produce an empty result set the source tests for). -/
structure Engine (G : Type) : Type where
  /-- `Chem.MolFromSmiles(s, sanitize=False)`; `none` models the `None`
  result for garbage input. -/
  molFromSmiles : String → Option G
  /-- `Chem.SanitizeMol(m, sanitizeOps=a)` with the source's flag mask
  (everything except `SANITIZE_CLEANUP` and `SANITIZE_ALL`); `none` models a
  raised sanitize exception, `some` the (in-place sanitized) graph. -/
  sanitizeMol : G → Option G
  /-- `Chem.MolToSmiles(m, isomericSmiles=True, canonical=True)`; `none`
  models a raised conversion exception. -/
  molToSmiles : G → Option String
  /-- `Chem.GetSymmSSSR(m)`, as a list of atom-index rings. -/
  symmSSSR : G → List (List ℕ)
  /-- `m.GetAtomWithIdx(i).GetIsAromatic()`. -/
  isAromatic : G → ℕ → Bool
  /-- `Chem.FindMolChiralCenters(m, includeUnassigned=b)`. -/
  findChiralCenters : Bool → G → List (ℕ × String)
  /-- `m.GetBonds()` with the queried per-bond data. -/
  getBonds : G → List RBond
  /-- `m.HasSubstructMatch(Chem.MolFromSmarts(s))`, keyed by the SMARTS
  string. -/
  hasSubstructMatch : String → G → Bool
  /-- `AllChem.ReplaceSubstructs(m, [$([C+](=*)(-*)-*)], C)[0]`. -/
  replaceCPlus : G → G
  /-- `AllChem.ReactionFromSmarts(s).RunReactants([m])`, keyed by the
  reaction SMARTS; `some` is the first product `r[0][0]`, `none` an empty
  product set. -/
  runReactantsFirst : String → G → Option G
  /-- `Chem.GetMolFrags(m, asMols=True)`. -/
  getMolFrags : G → List G
  /-- `m.GetNumHeavyAtoms()`. -/
  numHeavyAtoms : G → ℕ
  /-- `copy.deepcopy(m)` followed by `m.RemoveAllConformers()`. -/
  copyNoConfs : G → G
  /-- `AllChem.EmbedMolecule(m, ETKDG params)`; `some` is the mol carrying
  the new conformer, `none` the zero-conformer failure the source tests
  for.  (Stochasticity of repeated embedding calls is abstracted away.) -/
  embedETKDG : G → Option G
  /-- `AllChem.EmbedMolecule(m)` with default parameters (the fallback). -/
  embedDefault : G → Option G
  /-- `AllChem.UFFGetMoleculeForceField(m).CalcEnergy()`. -/
  uffEnergy : G → ℚ
  /-- `AllChem.UFFGetMoleculeForceField(m).Minimize()`, as the resulting
  mutated mol. -/
  uffMinimize : G → G
  /-- `m.GetAtoms()` with the queried per-atom data. -/
  atoms : G → List RAtom
  /-- Net effect of `MyConformer.align_to_me`'s engine choreography:
  temporarily add `other`'s conformer to `self`'s mol,
  `AllChem.AlignMolConformers(self.mol, atomIds=ids)`, extract the aligned
  conformer, install it as `other`'s sole conformer, drop the temporary.
  Arguments: `self`'s mol, `self.ids_hvy_atms`, `other`'s mol; result:
  `other`'s new mol. -/
  alignTo : G → List ℕ → G → G
  /-- Net effect of `MyConformer.rmsd_to_me`: rebuild a comparison mol from
  `self.smiles`, attach both conformers, `Chem.RemoveHs`, and
  `AllChem.GetConformerRMS(..., prealigned=True)`.  Arguments:
  `self.smiles`, `self`'s mol, `other`'s mol. -/
  rmsdCalc : String → G → G → ℚ

/-- Python's substring test `s in t` for strings. -/
def substrB (s t : String) : Bool := decide (List.IsInfix s.toList t.toList)

/-- `MyConformer` as first built by `MyConformer.__init__` (with
`conformer=None`, the only form the source uses).  `mol = none` models
`self.mol = False` after both embedding attempts fail; the remaining fields
are `Option`s because Python never assigns those attributes in that case. -/
structure RawConf (G : Type) : Type where
  mol : Option G
  smiles : String
  energy : Option ℚ
  minimized : Option Bool
  ids_hvy_atms : Option (List ℕ)
deriving DecidableEq

/-- A fully-initialized `MyConformer`: every attribute assigned.  All
conformers stored in a molecule's `conformers` list are of this shape. -/
structure Conf (G : Type) : Type where
  mol : G
  smiles : String
  energy : ℚ
  minimized : Bool
  ids_hvy_atms : List ℕ
deriving DecidableEq

/-- `[a.GetIdx() for a in self.mol.GetAtoms() if a.GetAtomicNum() != 1]`. -/
def hvyIds {G : Type} (E : Engine G) (g : G) : List ℕ :=
  ((E.atoms g).filter (fun a => a.atomicNum ≠ 1)).map (fun a => a.idx)

/-- `MyConformer.__init__(mol, conformer=None)`: deep-copy the owning mol
and strip conformers, embed with ETKDG, fall back to the default embedder,
mark `self.mol = False` if both fail; on success compute the UFF energy,
set `minimized = False` and cache the heavy-atom indices.  `g` is
`mol.rdkit_mol`, `smi` is `mol.smiles()`. -/
def mkMyConformerRaw {G : Type} (E : Engine G) (g : G) (smi : String) : RawConf G :=
  let m0 := E.copyNoConfs g
  match E.embedETKDG m0 with
  | some m =>
      { mol := some m, smiles := smi, energy := some (E.uffEnergy m),
        minimized := some false, ids_hvy_atms := some (hvyIds E m) }
  | none =>
      match E.embedDefault m0 with
      | some m =>
          { mol := some m, smiles := smi, energy := some (E.uffEnergy m),
            minimized := some false, ids_hvy_atms := some (hvyIds E m) }
      | none =>
          { mol := none, smiles := smi, energy := none,
            minimized := none, ids_hvy_atms := none }

/-- View a raw conformer as a fully-initialized one, when every attribute
was assigned. -/
def RawConf.toConf {G : Type} : RawConf G → Option (Conf G)
  | { mol := some m, smiles := s, energy := some e, minimized := some b,
      ids_hvy_atms := some l } => some ⟨m, s, e, b, l⟩
  | _ => none

/-- The successful-construction view of `MyConformer.__init__`: `some c`
exactly when `new_conf.mol is not False` (proved below), which is the
guard `add_conformers` uses before appending. -/
def mkMyConformer {G : Type} (E : Engine G) (g : G) (smi : String) : Option (Conf G) :=
  (mkMyConformerRaw E g smi).toConf

/-- `MyConformer.minimize`: a no-op when `self.minimized == True`;
otherwise minimize the geometry with UFF, recompute the cached energy and
set the flag. -/
def minimizeConf {G : Type} (E : Engine G) (c : Conf G) : Conf G :=
  if c.minimized then c
  else
    let m := E.uffMinimize c.mol
    { c with mol := m, energy := E.uffEnergy m, minimized := true }

/-- `MyConformer.align_to_me(other_conf)`: mutates `other`'s geometry to
the version aligned onto `self` (heavy atoms only) and returns it;
`self` is unchanged. -/
def align_to_me {G : Type} (E : Engine G) (c1 c2 : Conf G) : Conf G :=
  { c2 with mol := E.alignTo c1.mol c1.ids_hvy_atms c2.mol }

/-- `MyConformer.rmsd_to_me(other_conf)`. -/
def rmsd_to_me {G : Type} (E : Engine G) (c1 c2 : Conf G) : ℚ :=
  E.rmsdCalc c1.smiles c1.mol c2.mol

/-- The inner loop of `eliminate_structurally_similar_conformers` for a
fixed live `conformers[i1] = c1`: walk the suffix `conformers[i1+1:]`,
skip entries already marked `None`, align each live entry onto `c1`
(mutating it in place), and mark it `None` when the RMSD to `c1` is within
the cutoff. -/
def innerPass {G : Type} (E : Engine G) (k : ℚ) (c1 : Conf G) :
    List (Option (Conf G)) → List (Option (Conf G))
  | [] => []
  | none :: rest => none :: innerPass E k c1 rest
  | some c2 :: rest =>
      if rmsd_to_me E c1 (align_to_me E c1 c2) ≤ k then none :: innerPass E k c1 rest
      else some (align_to_me E c1 c2) :: innerPass E k c1 rest

/-- The outer loop of `eliminate_structurally_similar_conformers`: for each
index `i1` in order, if `conformers[i1]` is still live, run the inner pass
over the suffix.  The mutations at step `i1` only touch indices `> i1`, so
the Python index loop is this head-then-recurse traversal; the structural
fuel parameter is instantiated with the list length, which the inner pass
preserves. -/
def elimLoop {G : Type} (E : Engine G) (k : ℚ) :
    ℕ → List (Option (Conf G)) → List (Option (Conf G))
  | 0, l => l
  | _ + 1, [] => []
  | n + 1, none :: rest => none :: elimLoop E k n rest
  | n + 1, some c1 :: rest => some c1 :: elimLoop E k n (innerPass E k c1 rest)

/-- `MyMol.eliminate_structurally_similar_conformers(rmsd_cutoff)` acting
on the `conformers` list: pairwise align-and-compare marking near
duplicates `None`, then drop all `None` entries (Python's
`while None in ...: remove(None)`), preserving the order of survivors. -/
def eliminate_structurally_similar_conformers {G : Type} (E : Engine G) (k : ℚ)
    (l : List (Conf G)) : List (Conf G) :=
  (elimLoop E k l.length (l.map some)).filterMap id

/-- The sort relation of `self.conformers.sort(key=attrgetter('energy'))`. -/
def energyLe {G : Type} (a b : Conf G) : Prop := a.energy ≤ b.energy

instance {G : Type} : DecidableRel (energyLe (G := G)) :=
  fun a b => inferInstanceAs (Decidable (a.energy ≤ b.energy))

instance {G : Type} : IsTotal (Conf G) energyLe := ⟨fun a b => le_total a.energy b.energy⟩

instance {G : Type} : IsTrans (Conf G) energyLe := ⟨fun _ _ _ h h' => le_trans h h'⟩

/-- `self.conformers.sort(key=operator.attrgetter('energy'))`.  Python's
sort is a stable ascending sort; any stable sort over a total preorder
computes the same list, so insertion sort is used here. -/
def sortByEnergy {G : Type} (l : List (Conf G)) : List (Conf G) :=
  List.insertionSort energyLe l

/-- `MyMol.add_conformers(num, rmsd_cutoff, minimize)` acting on the
`conformers` list.  `g` is `self.rdkit_mol` and `smi` is `self.smiles()`,
the data `MyConformer(self)` reads from the owning molecule.  Generates
`max(0, num - len(conformers))` new conformers, appending only those whose
construction succeeded (`new_conf.mol is not False`), minimizes every
conformer when asked, sorts by energy, then deduplicates. -/
def add_conformers {G : Type} (E : Engine G) (g : G) (smi : String) (num : ℕ)
    (rmsd_cutoff : ℚ) (minimize : Bool) (confs : List (Conf G)) : List (Conf G) :=
  let numNew := num - confs.length
  let confs1 := confs ++ (List.range numNew).filterMap (fun _ => mkMyConformer E g smi)
  let confs2 := if minimize then confs1.map (minimizeConf E) else confs1
  eliminate_structurally_similar_conformers E rmsd_cutoff (sortByEnergy confs2)

/-- The result of `MyMol.get_frags_of_orig_smi`: either the one-element
list `[self]` (no fragment separator in the original smiles) or the list
of fragment graphs from `Chem.GetMolFrags`. -/
inductive FragsResult (G : Type) : Type
  /-- The list `[self]`: the record itself is the only fragment. -/
  | selfList
  /-- `Chem.GetMolFrags(self.rdkit_mol, asMols=True)`. -/
  | graphs (gs : List G)
deriving DecidableEq

/-- `MyMol` (the molecule record).  Field names and cache sentinels follow
`MyMol.__init__`; the bookkeeping fields not touched by any modelled
operation (`stdrd_smiles`, `enrgy`, `minimized_enrgy`, `mol_props`,
`idxs_low_energy_confs_no_opt`, `idxs_of_confs_to_min`) are elided. -/
structure MyMol (G : Type) : Type where
  rdkit_mol : RdMol G
  can_smi : CanSmi
  can_smi_noh : CanSmi
  orig_smi : String
  orig_smi_deslt : String
  name : String
  conformers : List (Conf G)
  nonaro_ring_atom_idx : Cached (List (List ℕ))
  chiral_cntrs_only_assigned : Cached (List (ℕ × String))
  chiral_cntrs_include_unasignd : Cached (List (ℕ × String))
  crzy_substruct : Cached Bool
  contnr_idx : Option ℕ
  frgs : Cached (FragsResult G)
  genealogy : List String
deriving DecidableEq

/-- The parse-then-sanitize body of `MyMol.makeMolFromSmiles`:
`Chem.MolFromSmiles(notation, sanitize=False)` followed by the explicit
sanitize-ops pass, with either failure caught and stored as the `None`
graph (`Chem.SanitizeMol(None, ...)` raises, which the `except` catches). -/
def parseSanitize {G : Type} (E : Engine G) (s : String) : RdMol G :=
  match E.molFromSmiles s with
  | none => RdMol.failed
  | some m =>
      match E.sanitizeMol m with
      | none => RdMol.failed
      | some m' => RdMol.mol m'

/-- `MyMol.makeMolFromSmiles`: return the record unchanged if
`self.rdkit_mol != ""` (a previous mol or a previous `None` failure);
otherwise parse `self.orig_smi_deslt` and store the outcome. -/
def makeMolFromSmiles {G : Type} (E : Engine G) (r : MyMol G) : MyMol G :=
  match r.rdkit_mol with
  | RdMol.failed => r
  | RdMol.mol _ => r
  | RdMol.unset => { r with rdkit_mol := parseSanitize E r.orig_smi_deslt }

/-- The state of a string-input `MyMol` right before `__init__`'s final
`makeMolFromSmiles()` call: every cache at its sentinel, `orig_smi` and
`orig_smi_deslt` both the input string, the graph still absent. -/
def freshMyMol {G : Type} (s name : String) : MyMol G :=
  { rdkit_mol := RdMol.unset, can_smi := CanSmi.unset, can_smi_noh := CanSmi.unset,
    orig_smi := s, orig_smi_deslt := s, name := name, conformers := [],
    nonaro_ring_atom_idx := Cached.unset, chiral_cntrs_only_assigned := Cached.unset,
    chiral_cntrs_include_unasignd := Cached.unset, crzy_substruct := Cached.unset,
    contnr_idx := none, frgs := Cached.unset, genealogy := [] }

/-- `MyMol.__init__(smiles, name)` with a string input: every cache starts
at its sentinel, `orig_smi` and `orig_smi_deslt` are both the input string,
and `makeMolFromSmiles` runs before `__init__` returns. -/
def mkMyMolFromString {G : Type} (E : Engine G) (s name : String) : MyMol G :=
  makeMolFromSmiles E (freshMyMol s name)

/-- `MyMol.__init__(smiles, name)` with an rdkit-mol input: keep the graph
and immediately canonicalize it; on success the canonical string also
becomes `orig_smi` and `orig_smi_deslt`.  On failure Python stores
`can_smi = False` and leaves the (non-string) mol object bound to the
notation fields; no modelled operation reads the notation of such a
record, so those fields are modelled as `""` there.  `makeMolFromSmiles`
still runs but returns immediately since the graph is present. -/
def mkMyMolFromMol {G : Type} (E : Engine G) (g : G) (name : String) : MyMol G :=
  let base : MyMol G :=
    { rdkit_mol := RdMol.mol g, can_smi := CanSmi.unset, can_smi_noh := CanSmi.unset,
      orig_smi := "", orig_smi_deslt := "", name := name, conformers := [],
      nonaro_ring_atom_idx := Cached.unset, chiral_cntrs_only_assigned := Cached.unset,
      chiral_cntrs_include_unasignd := Cached.unset, crzy_substruct := Cached.unset,
      contnr_idx := none, frgs := Cached.unset, genealogy := [] }
  match E.molToSmiles g with
  | some s =>
      makeMolFromSmiles E
        { base with can_smi := CanSmi.val s, orig_smi := s, orig_smi_deslt := s }
  | none =>
      makeMolFromSmiles E { base with can_smi := CanSmi.failFalse }

/-- The value returned by `MyMol.smiles()` (hydrogen-inclusive form):
the cache when set (including the `None`/`False` failure sentinels, which
compare `!= ""` in Python and are returned as-is), otherwise the engine
conversion, with a caught failure yielding `None`.  The result is never
the `unset` sentinel.  `Chem.MolToSmiles` on a `None` or `""` graph also
raises, which the method catches the same way. -/
def smilesVal {G : Type} (E : Engine G) (r : MyMol G) : CanSmi :=
  match r.can_smi with
  | CanSmi.val s => CanSmi.val s
  | CanSmi.failNone => CanSmi.failNone
  | CanSmi.failFalse => CanSmi.failFalse
  | CanSmi.unset =>
      match r.rdkit_mol with
      | RdMol.mol g =>
          match E.molToSmiles g with
          | some s => CanSmi.val s
          | none => CanSmi.failNone
      | _ => CanSmi.failNone

/-- `MyMol.__hash__`: `hash(self.smiles())`.  `h` is Python's built-in
`hash` restricted to the values `smiles()` can return (a string, `None`,
or `False`); it is a parameter because CPython's string hashing is
process-seed dependent. -/
def myMolHash {G : Type} (E : Engine G) (h : CanSmi → ℤ) (r : MyMol G) : ℤ :=
  h (smilesVal E r)

/-- `MyMol.__eq__`: `self.__hash__() == other.__hash__()`. -/
def myMolEq {G : Type} (E : Engine G) (h : CanSmi → ℤ) (r1 r2 : MyMol G) : Bool :=
  myMolHash E h r1 == myMolHash E h r2

/-- `MyMol.m_num_nonaro_rngs`: cached; `[]` when `self.rdkit_mol is None`;
otherwise the SSSR rings that contain at least one non-aromatic atom.
Running the ring query on the `""` sentinel would raise (the sentinel is
unreachable after `__init__`). -/
def m_num_nonaro_rngs {G : Type} (E : Engine G) (r : MyMol G) :
    Except PyErr (List (List ℕ)) :=
  match r.nonaro_ring_atom_idx with
  | Cached.val v => Except.ok v
  | Cached.unset =>
      match r.rdkit_mol with
      | RdMol.failed => Except.ok []
      | RdMol.mol g =>
          Except.ok ((E.symmSSSR g).filter
            (fun ring => ring.any (fun i => E.isAromatic g i = false)))
      | RdMol.unset => Except.error PyErr.argumentError

/-- `MyMol.chiral_cntrs_w_unasignd`: cached; `[]` when the graph is
invalid; otherwise `FindMolChiralCenters(..., includeUnassigned=True)`. -/
def chiral_cntrs_w_unasignd {G : Type} (E : Engine G) (r : MyMol G) :
    Except PyErr (List (ℕ × String)) :=
  match r.chiral_cntrs_include_unasignd with
  | Cached.val v => Except.ok v
  | Cached.unset =>
      match r.rdkit_mol with
      | RdMol.failed => Except.ok []
      | RdMol.mol g => Except.ok (E.findChiralCenters true g)
      | RdMol.unset => Except.error PyErr.argumentError

/-- `MyMol.chiral_cntrs_only_asignd`: cached; `[]` when the graph is
invalid; otherwise `FindMolChiralCenters(..., includeUnassigned=False)`. -/
def chiral_cntrs_only_asignd {G : Type} (E : Engine G) (r : MyMol G) :
    Except PyErr (List (ℕ × String)) :=
  match r.chiral_cntrs_only_assigned with
  | Cached.val v => Except.ok v
  | Cached.unset =>
      match r.rdkit_mol with
      | RdMol.failed => Except.ok []
      | RdMol.mol g => Except.ok (E.findChiralCenters false g)
      | RdMol.unset => Except.error PyErr.argumentError

/-- `MyMol.get_double_bonds_without_stereochemistry`: `[]` when the graph
is invalid; otherwise the indices of bonds of order exactly 2 whose stereo
descriptor is `STEREONONE`. -/
def get_double_bonds_without_stereochemistry {G : Type} (E : Engine G) (r : MyMol G) :
    Except PyErr (List ℕ) :=
  match r.rdkit_mol with
  | RdMol.failed => Except.ok []
  | RdMol.mol g =>
      Except.ok (((E.getBonds g).filter
        (fun b => b.bondTypeAsDouble = 2 ∧ b.stereoIsNone)).map (fun b => b.idx))
  | RdMol.unset => Except.error PyErr.attributeError

/-- The fixed pattern catalogue of `MyMol.crzy_substruc`. -/
def prohibited_substructures : List String := ["O(=*)-*", "C(O)=N"]

/-- The textual pre-filter of `crzy_substruc` for one pattern: Python's
`s in self.orig_smi`, `s in self.orig_smi_deslt`, `s in self.can_smi`.
The last test raises `TypeError` when `can_smi` holds the `None` or
`False` failure sentinel instead of a string. -/
def crzyTextCheck {G : Type} (r : MyMol G) (s : String) : Except PyErr Bool :=
  if substrB s r.orig_smi then Except.ok true
  else if substrB s r.orig_smi_deslt then Except.ok true
  else
    match r.can_smi with
    | CanSmi.unset => Except.ok (substrB s "")
    | CanSmi.val t => Except.ok (substrB s t)
    | CanSmi.failNone => Except.error PyErr.typeError
    | CanSmi.failFalse => Except.error PyErr.typeError

/-- The first loop of `crzy_substruc` over the pattern catalogue, stopping
at the first textual hit. -/
def crzyTextLoop {G : Type} (r : MyMol G) : List String → Except PyErr Bool
  | [] => Except.ok false
  | s :: rest =>
      match crzyTextCheck r s with
      | Except.error e => Except.error e
      | Except.ok true => Except.ok true
      | Except.ok false => crzyTextLoop r rest

/-- One step of the second loop of `crzy_substruc`:
`self.rdkit_mol.HasSubstructMatch(Chem.MolFromSmarts(s))`.  When
`rdkit_mol` is `None` (or the `""` sentinel) the attribute access raises
`AttributeError` — `crzy_substruc` has no invalid-graph guard. -/
def crzySubCheck {G : Type} (E : Engine G) (r : MyMol G) (s : String) : Except PyErr Bool :=
  match r.rdkit_mol with
  | RdMol.mol g => Except.ok (E.hasSubstructMatch s g)
  | _ => Except.error PyErr.attributeError

/-- The second loop of `crzy_substruc`, stopping at the first match. -/
def crzySubLoop {G : Type} (E : Engine G) (r : MyMol G) : List String → Except PyErr Bool
  | [] => Except.ok false
  | s :: rest =>
      match crzySubCheck E r s with
      | Except.error e => Except.error e
      | Except.ok true => Except.ok true
      | Except.ok false => crzySubLoop E r rest

/-- `MyMol.crzy_substruc`: cached; otherwise the textual pre-filter over
the pattern catalogue, then exact substructure matching. -/
def crzy_substruc {G : Type} (E : Engine G) (r : MyMol G) : Except PyErr Bool :=
  match r.crzy_substruct with
  | Cached.val v => Except.ok v
  | Cached.unset =>
      match crzyTextLoop r prohibited_substructures with
      | Except.error e => Except.error e
      | Except.ok true => Except.ok true
      | Except.ok false =>
          match crzySubLoop E r prohibited_substructures with
          | Except.error e => Except.error e
          | Except.ok b => Except.ok b

/-- One pass of the body of `fix_common_errors`' while loop.  `m` is the
local `mol` at the start of the pass, which at that point equals
`self.rdkit_mol` (the guards of the second and third transform consult
`self.rdkit_mol` while the transforms themselves apply to the evolving
local `mol`).  `ocs` is `orig_can_smi = self.smiles()`, whose cached value
at the start of the pass is the canonical form of `m`; when that value is
the `None` failure sentinel, `"[C+]" in orig_can_smi` raises `TypeError`. -/
def fixPassStep {G : Type} (E : Engine G) (m : G) (ocs : Option String) :
    Except PyErr G :=
  match ocs with
  | none => Except.error PyErr.typeError
  | some s =>
      let m1 := if substrB "[C+]" s then E.replaceCPlus m else m
      let m2 :=
        if E.hasSubstructMatch "C([O-])O" m then
          match E.runReactantsFirst "[CH1:1](-[OH1:2])-[OX1-:3]>>[C:1](=[O:2])[O-:3]" m1 with
          | some x => x
          | none => m1
        else m1
      let m3 :=
        if E.hasSubstructMatch "[NX3+]" m then
          match E.runReactantsFirst "[NX3+:1]>>[N:1]" m2 with
          | some x => x
          | none => m2
        else m2
      Except.ok m3

/-- One pass of `fix_common_errors` as a function of the current graph
alone: the `orig_can_smi` read at the start of a pass is (the cached copy
of) `Chem.MolToSmiles` of the current graph. -/
def fixPass1 {G : Type} (E : Engine G) (m : G) : Except PyErr G :=
  fixPassStep E m (E.molToSmiles m)

/-- The possible outcomes of running `fix_common_errors`. -/
inductive FixRes (G : Type) : Type
  /-- The early `return None`: `self.rdkit_mol` was `None`. -/
  | invalid
  /-- The while loop never reached its exit condition within the allotted
  number of passes (the source's loop has no pass bound at all). -/
  | diverged
  /-- A Python exception escaped the loop body. -/
  | raised
  /-- The loop exited; `m` is the final `self.rdkit_mol`. -/
  | done (m : G)
deriving DecidableEq

/-- The while loop of `fix_common_errors`, run for at most `fuel` passes:
each pass reads `orig_can_smi`, rewrites the graph, recomputes the
canonical form and exits as soon as it did not change. -/
def fixLoop {G : Type} (E : Engine G) : ℕ → G → FixRes G
  | 0, _ => FixRes.diverged
  | fuel + 1, m =>
      match fixPassStep E m (E.molToSmiles m) with
      | Except.error _ => FixRes.raised
      | Except.ok m' =>
          if E.molToSmiles m' = E.molToSmiles m then FixRes.done m'
          else fixLoop E fuel m'

/-- `MyMol.fix_common_errors`, with the loop allotted `fuel` passes.  When
`self.rdkit_mol` is `None` the first pass hits `return None`; when it is
the `""` sentinel, `smiles()` returns `None` and the `"[C+]" in
orig_can_smi` test raises. -/
def fix_common_errors {G : Type} (E : Engine G) (fuel : ℕ) : RdMol G → FixRes G
  | RdMol.failed => FixRes.invalid
  | RdMol.unset => FixRes.raised
  | RdMol.mol g => fixLoop E fuel g

/-- `n` consecutive passes of `fix_common_errors`, propagating a raised
exception. -/
def fixPassIter {G : Type} (E : Engine G) : ℕ → G → Except PyErr G
  | 0, m => Except.ok m
  | n + 1, m =>
      match fixPass1 E m with
      | Except.error e => Except.error e
      | Except.ok m' => fixPassIter E n m'

/-- The canonical form stabilizes after finitely many repair passes: some
pass succeeds and leaves the canonical form unchanged.  This is exactly
the exit condition of the while loop of `fix_common_errors`. -/
def fixStabilizes {G : Type} (E : Engine G) (m : G) : Prop :=
  ∃ n mn mn1, fixPassIter E n m = Except.ok mn ∧ fixPass1 E mn = Except.ok mn1 ∧
    E.molToSmiles mn1 = E.molToSmiles mn

/-- `fix_common_errors` never exits its loop, however many passes it is
allowed. -/
def fixDiverges {G : Type} (E : Engine G) (m : G) : Prop :=
  ∀ fuel, fixLoop E fuel m = FixRes.diverged

/-- `MyMol.get_frags_of_orig_smi`: cached; `[self]` when the original
smiles has no `"."` separator; otherwise `Chem.GetMolFrags` on the graph,
which raises when the graph is `None` (or the `""` sentinel). -/
def get_frags_of_orig_smi {G : Type} (E : Engine G) (r : MyMol G) :
    Except PyErr (FragsResult G) :=
  match r.frgs with
  | Cached.val v => Except.ok v
  | Cached.unset =>
      if substrB "." r.orig_smi = false then Except.ok FragsResult.selfList
      else
        match r.rdkit_mol with
        | RdMol.mol g => Except.ok (FragsResult.graphs (E.getMolFrags g))
        | _ => Except.error PyErr.argumentError

/-- Modelled from the spec: the `MolContainer` objects handed to
`desalter` are not part of the two source files; per the spec the
container carries the shared original notation, name and container index,
owns the molecule record built from the input notation
(`mol_orig_frm_inp_smi`), and its `get_frags_of_orig_smi` delegates to
that record's fragmentation query. -/
structure Container (G : Type) : Type where
  orig_smi : String
  name : String
  contnr_idx : Option ℕ
  mol_orig_frm_inp_smi : MyMol G
deriving DecidableEq

/-- Modelled from the spec: `contnr.get_frags_of_orig_smi()` delegates to
the container's original molecule record. -/
def Container.get_frags {G : Type} (E : Engine G) (c : Container G) :
    Except PyErr (FragsResult G) :=
  get_frags_of_orig_smi E c.mol_orig_frm_inp_smi

/-- The dict build of `desalter`: `num_heavy_atoms_to_frag[num] = f` in
fragment order, so the final binding for each count is the last fragment
with that count; `max(num_heavy_atoms)` on a nonempty list. -/
def desalterMaxNum {G : Type} (E : Engine G) (gs : List G) : ℕ :=
  (gs.map E.numHeavyAtoms).foldl max 0

/-- `num_heavy_atoms_to_frag[max_num]`: last-seen-wins lookup of the
maximal heavy-atom count. -/
def desalterBiggestFrag {G : Type} (E : Engine G) (gs : List G) : Option G :=
  ((gs.map (fun f => (E.numHeavyAtoms f, f))).reverse).lookup (desalterMaxNum E gs)

/-- The multi-fragment branch of `desalter` up to (but excluding) the
`new_mol.make_mol_frm_smiles_sanitze()` call: build a fresh record from
the biggest fragment and copy the container's index and name and the
original record's genealogy onto it.  `none` only when the dict lookup
could fail, which it cannot since the maximum is attained. -/
def desalter_new_mol {G : Type} (E : Engine G) (c : Container G) (gs : List G) :
    Option (MyMol G) :=
  match desalterBiggestFrag E gs with
  | none => none
  | some biggest =>
      let nm := mkMyMolFromMol E biggest ""
      some { nm with contnr_idx := c.contnr_idx, name := c.name,
                     genealogy := c.mol_orig_frm_inp_smi.genealogy }

/-- `desalter(contnr)`: one fragment means the record passes through
unchanged; with several fragments the biggest-fragment record is built,
after which the source calls `new_mol.make_mol_frm_smiles_sanitze()` — a
method `MyMol` does not define — so the multi-fragment branch raises
`AttributeError` before it can return `new_mol`. -/
def desalter {G : Type} (E : Engine G) (c : Container G) : Except PyErr (MyMol G) :=
  match Container.get_frags E c with
  | Except.error e => Except.error e
  | Except.ok fr =>
      let len := match fr with
        | FragsResult.selfList => 1
        | FragsResult.graphs gs => gs.length
      if len = 1 then Except.ok c.mol_orig_frm_inp_smi
      else
        match fr with
        | FragsResult.selfList => Except.ok c.mol_orig_frm_inp_smi
        | FragsResult.graphs gs =>
            match desalter_new_mol E c gs with
            | some _ => Except.error PyErr.attributeError
            | none => Except.error PyErr.keyError

/-! Concrete engine instances over `G := ℕ` (graphs as labels), used to
evaluate the embedded code on explicit inputs. -/

/-- A simple concrete engine: parsing always yields graph `100`,
canonicalization always yields `"S"`, embedding succeeds, no substructure
ever matches. -/
def EngNat : Engine ℕ where
  molFromSmiles := fun _ => some 100
  sanitizeMol := fun g => some g
  molToSmiles := fun _ => some "S"
  symmSSSR := fun _ => []
  isAromatic := fun _ _ => false
  findChiralCenters := fun _ _ => []
  getBonds := fun _ => []
  hasSubstructMatch := fun _ _ => false
  replaceCPlus := fun g => g
  runReactantsFirst := fun _ _ => none
  getMolFrags := fun _ => []
  numHeavyAtoms := fun g => g
  copyNoConfs := fun g => g
  embedETKDG := fun g => some g
  embedDefault := fun _ => none
  uffEnergy := fun g => (g : ℚ)
  uffMinimize := fun g => g
  atoms := fun _ => []
  alignTo := fun _ _ other => other
  rmsdCalc := fun _ _ _ => 1

/-- An engine whose parser always fails, producing invalid-graph records. -/
def EngBadParse : Engine ℕ := { EngNat with molFromSmiles := fun _ => none }

/-- An engine on which both 3D-embedding variants fail. -/
def EngNoEmbed : Engine ℕ :=
  { EngNat with embedETKDG := fun _ => none, embedDefault := fun _ => none }

/-- An engine whose alignment translates the aligned geometry (by `+10`)
and whose RMSD depends on the absolute geometries, as rdkit's
`prealigned=True` conformer RMS does. -/
def EngAlign : Engine ℕ :=
  { EngNat with
    alignTo := fun _ _ other => other + 10
    rmsdCalc := fun _ a b => if a = 0 ∧ b = 22 then 0 else 1 }

/-- An engine with one parseable three-fragment input: graph `100` splits
into fragments `31, 52, 53` with heavy-atom counts `1, 3, 3` (a tie for
the maximum between the second and third fragment). -/
def EngFrag : Engine ℕ :=
  { EngNat with
    getMolFrags := fun g => if g = 100 then [31, 52, 53] else []
    numHeavyAtoms := fun g => if g = 31 then 1 else 3
    molToSmiles := fun _ => some "F" }

/-- An engine on which one repair pass flips the graph (`Bool`) while the
canonical form always contains `"[C+]"`, so consecutive passes never agree
on the canonical form. -/
def EngFlip : Engine Bool where
  molFromSmiles := fun _ => none
  sanitizeMol := fun g => some g
  molToSmiles := fun b => some (cond b "[C+]A" "[C+]B")
  symmSSSR := fun _ => []
  isAromatic := fun _ _ => false
  findChiralCenters := fun _ _ => []
  getBonds := fun _ => []
  hasSubstructMatch := fun _ _ => false
  replaceCPlus := fun b => !b
  runReactantsFirst := fun _ _ => none
  getMolFrags := fun _ => []
  numHeavyAtoms := fun _ => 0
  copyNoConfs := fun g => g
  embedETKDG := fun _ => none
  embedDefault := fun _ => none
  uffEnergy := fun _ => 0
  uffMinimize := fun g => g
  atoms := fun _ => []
  alignTo := fun _ _ other => other
  rmsdCalc := fun _ _ _ => 0

/-- A container holding a record built from a separator-free notation. -/
def cNoDot : Container ℕ :=
  ⟨"CCO", "nm", some 0, mkMyMolFromString EngNat "CCO" "nm"⟩

/-- A container holding the record built from the three-fragment notation
`"CC.CCC.X"` on `EngFrag`. -/
def cFrag : Container ℕ :=
  ⟨"CC.CCC.X", "salt", some 7, mkMyMolFromString EngFrag "CC.CCC.X" "salt"⟩

/-- A record whose cached canonical form is the string `"C"`. -/
def molValC : MyMol ℕ :=
  { freshMyMol "c-in" "n1" with rdkit_mol := RdMol.mol 0, can_smi := CanSmi.val "C" }

/-- A record whose cached canonical form is the string `"O"`. -/
def molValO : MyMol ℕ :=
  { freshMyMol "o-in" "n2" with rdkit_mol := RdMol.mol 1, can_smi := CanSmi.val "O" }

/-- A record whose cached canonical form is the string `"CC"`. -/
def molValCC : MyMol ℕ :=
  { freshMyMol "cc-in" "n3" with rdkit_mol := RdMol.mol 2, can_smi := CanSmi.val "CC" }

/-- A hash function (on canonical-smiles values) measuring string length;
collision-free on `"C"` and `"CC"`. -/
def hashLen : CanSmi → ℤ
  | CanSmi.val s => (s.length : ℤ)
  | _ => -1

/-! ## Claim C9 -/

/-- Claim C9: `MyConformer.minimize` is idempotent — once `minimized` is
set, a further call returns the record unchanged (energy and geometry
included), so two calls give the same record, and in particular the same
energy, as one call. -/
theorem C9_minimize_idempotent {G : Type} (E : Engine G) (c : Conf G) :
    (c.minimized = true → minimizeConf E c = c) ∧
    minimizeConf E (minimizeConf E c) = minimizeConf E c ∧
    (minimizeConf E (minimizeConf E c)).energy = (minimizeConf E c).energy := by
  have hset : (minimizeConf E c).minimized = true := by
    by_cases h : c.minimized <;> simp [minimizeConf, h]
  have hidem : ∀ d : Conf G, d.minimized = true → minimizeConf E d = d := by
    intro d hd
    simp [minimizeConf, hd]
  refine ⟨fun h => hidem c h, hidem _ hset, ?_⟩
  rw [hidem _ hset]

/-- Witness for C9 at a concrete engine and an already-minimized
conformer. -/
theorem C9_minimize_idempotent_witness :
    minimizeConf EngNat ⟨0, "s", 5, true, []⟩ = ⟨0, "s", 5, true, []⟩ ∧
    minimizeConf EngNat (minimizeConf EngNat ⟨0, "s", 5, true, []⟩)
      = minimizeConf EngNat ⟨0, "s", 5, true, []⟩ := by
  have T := C9_minimize_idempotent EngNat ⟨0, "s", 5, true, []⟩
  exact ⟨T.1 rfl, T.2.1⟩

/-! ## Claim C10 -/

/-- Claim C10: when both embedding attempts fail, `MyConformer.__init__`
marks `mol` with the failure value and never assigns `energy`,
`minimized` or `ids_hvy_atms`; when `mol` is not the failure value, all
three are assigned (energy from UFF, `minimized = False`, the heavy-atom
indices); and the successful-construction view used by `add_conformers`
(`new_conf.mol is not False`) keeps a conformer exactly when `mol` is not
the failure value, so every stored conformer has all fields defined. -/
theorem C10_conformer_construction {G : Type} (E : Engine G) (g : G) (smi : String) :
    (E.embedETKDG (E.copyNoConfs g) = none → E.embedDefault (E.copyNoConfs g) = none →
      mkMyConformerRaw E g smi = ⟨none, smi, none, none, none⟩) ∧
    (∀ m, (mkMyConformerRaw E g smi).mol = some m →
      mkMyConformerRaw E g smi
        = ⟨some m, smi, some (E.uffEnergy m), some false, some (hvyIds E m)⟩) ∧
    ((mkMyConformer E g smi).isSome ↔ (mkMyConformerRaw E g smi).mol.isSome) := by
  refine ⟨fun h1 h2 => ?_, fun m hm => ?_, ?_⟩
  · simp [mkMyConformerRaw, h1, h2]
  · revert hm
    unfold mkMyConformerRaw
    cases h1 : E.embedETKDG (E.copyNoConfs g) with
    | some m' => intro hm; simp_all
    | none =>
        cases h2 : E.embedDefault (E.copyNoConfs g) with
        | some m' => intro hm; simp_all
        | none => intro hm; simp_all
  · unfold mkMyConformer mkMyConformerRaw
    cases h1 : E.embedETKDG (E.copyNoConfs g) with
    | some m' => simp [h1, RawConf.toConf]
    | none =>
        cases h2 : E.embedDefault (E.copyNoConfs g) with
        | some m' => simp [h1, h2, RawConf.toConf]
        | none => simp [h1, h2, RawConf.toConf]

/-- Witness for C10 at an engine on which both embedding variants fail. -/
theorem C10_conformer_construction_witness :
    mkMyConformerRaw EngNoEmbed 0 "s" = ⟨none, "s", none, none, none⟩ ∧
    ((mkMyConformer EngNoEmbed 0 "s").isSome ↔ (mkMyConformerRaw EngNoEmbed 0 "s").mol.isSome) := by
  have T := C10_conformer_construction EngNoEmbed 0 "s"
  exact ⟨T.1 rfl rfl, T.2.2⟩

/-! ## Claim C8 -/

/-- The parse/sanitize outcome is never the absent sentinel. -/
theorem parseSanitize_ne_unset {G : Type} (E : Engine G) (s : String) :
    parseSanitize E s ≠ RdMol.unset := by
  unfold parseSanitize
  cases h1 : E.molFromSmiles s with
  | none => simp
  | some m =>
      cases h2 : E.sanitizeMol m with
      | none => simp [h2]
      | some m' => simp [h2]

/-- Counterexample to claim C8: a record built from the notation string
`"CCO"` on a concrete engine has its graph materialized (to graph `100`)
already at the end of construction — `MyMol.__init__` calls
`makeMolFromSmiles()` before returning, so the graph does not stay absent
until first needed. -/
theorem C8_counterexample :
    (mkMyMolFromString EngNat "CCO" "").rdkit_mol ≠ RdMol.unset ∧
    (mkMyMolFromString EngNat "CCO" "").rdkit_mol = RdMol.mol 100 := by
  exact ⟨by decide, by decide⟩

/-- Claim C8 as amended: the graph field starts absent at the beginning of
construction, but `__init__` materializes it eagerly — after construction
from a string the graph field holds the parse/sanitize outcome (a graph
or the `None` failure marker) and never the absent sentinel; and
`makeMolFromSmiles` itself is idempotent, returning the record unchanged
whenever the graph field is no longer the absent sentinel. -/
theorem C8_eager_materialization {G : Type} (E : Engine G) (s n : String) :
    (mkMyMolFromString E s n).rdkit_mol = parseSanitize E s ∧
    (mkMyMolFromString E s n).rdkit_mol ≠ RdMol.unset ∧
    (∀ r : MyMol G, r.rdkit_mol ≠ RdMol.unset → makeMolFromSmiles E r = r) := by
  have hval : (mkMyMolFromString E s n).rdkit_mol = parseSanitize E s := rfl
  refine ⟨hval, ?_, ?_⟩
  · rw [hval]
    exact parseSanitize_ne_unset E s
  · intro r hr
    unfold makeMolFromSmiles
    cases h : r.rdkit_mol with
    | unset => exact absurd h hr
    | failed => rfl
    | mol g => rfl

/-- Witness for C8's amended statement at a concrete engine and input. -/
theorem C8_eager_materialization_witness :
    (mkMyMolFromString EngNat "CCO" "x").rdkit_mol = RdMol.mol 100 ∧
    makeMolFromSmiles EngNat (mkMyMolFromString EngNat "CCO" "x")
      = mkMyMolFromString EngNat "CCO" "x" := by
  have T := C8_eager_materialization EngNat "CCO" "x"
  refine ⟨?_, T.2.2 _ T.2.1⟩
  rw [T.1]
  rfl

/-! ## Claim C5 -/

/-- Claim C5: for a record built from a notation with no `"."` fragment
separator, `get_frags_of_orig_smi` returns the one-element list holding
the record itself, `desalter` passes the container's record through
unchanged, and the record's desalted notation equals its original
notation. -/
theorem C5_identity_passthrough {G : Type} (E : Engine G) (c : Container G) (s n : String)
    (hrec : c.mol_orig_frm_inp_smi = mkMyMolFromString E s n)
    (hdot : substrB "." s = false) :
    get_frags_of_orig_smi E c.mol_orig_frm_inp_smi = Except.ok FragsResult.selfList ∧
    desalter E c = Except.ok c.mol_orig_frm_inp_smi ∧
    c.mol_orig_frm_inp_smi.orig_smi_deslt = c.mol_orig_frm_inp_smi.orig_smi := by
  have hfrgs : (mkMyMolFromString E s n).frgs = Cached.unset := rfl
  have horig : (mkMyMolFromString E s n).orig_smi = s := rfl
  have hfr : get_frags_of_orig_smi E (mkMyMolFromString E s n)
      = Except.ok FragsResult.selfList := by
    unfold get_frags_of_orig_smi
    rw [hfrgs, horig, hdot]
    rfl
  refine ⟨hrec ▸ hfr, ?_, ?_⟩
  · unfold desalter Container.get_frags
    rw [hrec, hfr]
    rfl
  · rw [hrec]
    rfl

/-- Witness for C5 on the concrete container `cNoDot`. -/
theorem C5_identity_passthrough_witness :
    get_frags_of_orig_smi EngNat cNoDot.mol_orig_frm_inp_smi
      = Except.ok FragsResult.selfList ∧
    desalter EngNat cNoDot = Except.ok cNoDot.mol_orig_frm_inp_smi ∧
    cNoDot.mol_orig_frm_inp_smi.orig_smi_deslt = cNoDot.mol_orig_frm_inp_smi.orig_smi :=
  C5_identity_passthrough EngNat cNoDot "CCO" "nm" rfl (by decide)

/-! ## Claim C7 -/

/-- Claim C7 (code evaluated at the failing input): on a record whose
notation failed to parse (graph permanently `None`), the ring query, both
chirality queries and the unspecified-stereo-double-bond query all return
the empty list without raising, but `crzy_substruc` — which has no
invalid-graph guard — reaches `self.rdkit_mol.HasSubstructMatch(...)` on
`None` and raises `AttributeError`, contradicting the claim that every
dependent query degrades to a sentinel. -/
theorem C7_invalid_graph_queries :
    (mkMyMolFromString EngBadParse "XYZ" "bad").rdkit_mol = RdMol.failed ∧
    m_num_nonaro_rngs EngBadParse (mkMyMolFromString EngBadParse "XYZ" "bad")
      = Except.ok [] ∧
    chiral_cntrs_w_unasignd EngBadParse (mkMyMolFromString EngBadParse "XYZ" "bad")
      = Except.ok [] ∧
    chiral_cntrs_only_asignd EngBadParse (mkMyMolFromString EngBadParse "XYZ" "bad")
      = Except.ok [] ∧
    get_double_bonds_without_stereochemistry EngBadParse
      (mkMyMolFromString EngBadParse "XYZ" "bad") = Except.ok [] ∧
    crzy_substruc EngBadParse (mkMyMolFromString EngBadParse "XYZ" "bad")
      = Except.error PyErr.attributeError :=
  ⟨rfl, rfl, rfl, rfl, rfl, rfl⟩

/-! ## Claim C4 -/

/-- Claim C4 (code evaluated at the failing input): on a three-fragment
record, `desalter` picks the fragment of maximal heavy-atom count with
last-seen-wins tie-breaking (`53`, not `52`, both of count `3`) and builds
the new record with the container's index and name and the original
record's genealogy — but then calls
`new_mol.make_mol_frm_smiles_sanitze()`, a method `MyMol` does not define,
so the multi-fragment branch raises `AttributeError` instead of returning
the new record. -/
theorem C4_desalter_biggest_fragment :
    desalter EngFrag cFrag = Except.error PyErr.attributeError ∧
    desalterBiggestFrag EngFrag [31, 52, 53] = some 53 ∧
    (∀ g ∈ [31, 52, 53], EngFrag.numHeavyAtoms g ≤ EngFrag.numHeavyAtoms 53) ∧
    desalter_new_mol EngFrag cFrag [31, 52, 53] =
      some { mkMyMolFromMol EngFrag 53 "" with
             contnr_idx := cFrag.contnr_idx, name := cFrag.name,
             genealogy := cFrag.mol_orig_frm_inp_smi.genealogy } :=
  ⟨rfl, rfl, by decide, rfl⟩

/-! ## Claim C1 -/

/-- Counterexample to claim C1: under a (collision-prone) hash function —
here the constant hash, a behavior Python's seeded string hash cannot
exclude — two records with computable but different canonical forms
(`"C"` and `"O"`) compare equal, because `__eq__` compares hashes of the
canonical forms rather than the forms themselves. -/
theorem C1_counterexample :
    smilesVal EngNat molValC = CanSmi.val "C" ∧
    smilesVal EngNat molValO = CanSmi.val "O" ∧
    myMolEq EngNat (fun _ => (0 : ℤ)) molValC molValO = true ∧
    ("C" : String) ≠ "O" :=
  ⟨rfl, rfl, rfl, by decide⟩

/-- Claim C1 as amended: for records with computable canonical forms,
equal canonical forms imply equal records and identical hashes; equal
records always have identical hashes; and the full iff of the original
claim holds exactly under the additional assumption that the hash does
not collide on the two canonical forms. -/
theorem C1_eq_hash_contract {G : Type} (E : Engine G) (h : CanSmi → ℤ)
    (r1 r2 : MyMol G) (s1 s2 : String)
    (h1 : smilesVal E r1 = CanSmi.val s1) (h2 : smilesVal E r2 = CanSmi.val s2) :
    (s1 = s2 → myMolEq E h r1 r2 = true ∧ myMolHash E h r1 = myMolHash E h r2) ∧
    (myMolEq E h r1 r2 = true → myMolHash E h r1 = myMolHash E h r2) ∧
    ((h (CanSmi.val s1) = h (CanSmi.val s2) → s1 = s2) →
      (myMolEq E h r1 r2 = true ↔ s1 = s2)) := by
  have hh1 : myMolHash E h r1 = h (CanSmi.val s1) := by
    unfold myMolHash; rw [h1]
  have hh2 : myMolHash E h r2 = h (CanSmi.val s2) := by
    unfold myMolHash; rw [h2]
  have heq : myMolEq E h r1 r2 = true ↔ myMolHash E h r1 = myMolHash E h r2 := by
    unfold myMolEq
    exact beq_iff_eq
  refine ⟨fun hs => ?_, fun he => heq.mp he, fun hnc => ?_⟩
  · have : myMolHash E h r1 = myMolHash E h r2 := by rw [hh1, hh2, hs]
    exact ⟨heq.mpr this, this⟩
  · constructor
    · intro he
      exact hnc (by rw [← hh1, ← hh2]; exact heq.mp he)
    · intro hs
      exact heq.mpr (by rw [hh1, hh2, hs])

/-- Witness for C1's amended statement with a collision-free hash on the
two concrete canonical forms `"C"` and `"CC"`. -/
theorem C1_eq_hash_contract_witness :
    myMolEq EngNat hashLen molValC molValCC = true ↔ ("C" : String) = "CC" := by
  have T := C1_eq_hash_contract EngNat hashLen molValC molValCC "C" "CC" rfl rfl
  exact T.2.2 (fun hcol => absurd hcol (by decide))

/-! ## Claims C2 and C3: conformer-list lemmas -/

/-- The inner deduplication pass preserves the list length. -/
theorem innerPass_length {G : Type} (E : Engine G) (k : ℚ) (c1 : Conf G) :
    ∀ l : List (Option (Conf G)), (innerPass E k c1 l).length = l.length := by
  intro l
  induction l with
  | nil => rfl
  | cons o rest ih =>
      cases o with
      | none => simp [innerPass, ih]
      | some c2 =>
          by_cases h : rmsd_to_me E c1 (align_to_me E c1 c2) ≤ k <;>
            simp [innerPass, h, ih]

/-- Any projection untouched by alignment maps the live entries of an
inner pass to a sublist of the live entries it started from. -/
theorem innerPass_fm_map_sublist {G : Type} {α : Type} (E : Engine G) (k : ℚ)
    (c1 : Conf G) (f : Conf G → α)
    (hf : ∀ a b : Conf G, f (align_to_me E a b) = f b) :
    ∀ l : List (Option (Conf G)),
      (((innerPass E k c1 l).filterMap id).map f).Sublist ((l.filterMap id).map f) := by
  intro l
  induction l with
  | nil => simp [innerPass]
  | cons o rest ih =>
      cases o with
      | none => simpa [innerPass] using ih
      | some c2 =>
          by_cases h : rmsd_to_me E c1 (align_to_me E c1 c2) ≤ k
          · simp only [innerPass, if_pos h, List.filterMap_cons]
            exact ih.trans (by simp [List.Sublist.cons])
          · simp only [innerPass, if_neg h, List.filterMap_cons]
            simpa [hf] using List.Sublist.cons₂ (f c2) ih

/-- Any projection untouched by alignment maps the survivors of the outer
deduplication loop to a sublist of the live entries it started from. -/
theorem elimLoop_fm_map_sublist {G : Type} {α : Type} (E : Engine G) (k : ℚ)
    (f : Conf G → α) (hf : ∀ a b : Conf G, f (align_to_me E a b) = f b) :
    ∀ (n : ℕ) (l : List (Option (Conf G))),
      (((elimLoop E k n l).filterMap id).map f).Sublist ((l.filterMap id).map f) := by
  intro n
  induction n with
  | zero => intro l; simp [elimLoop]
  | succ n ih =>
      intro l
      cases l with
      | nil => simp [elimLoop]
      | cons o rest =>
          cases o with
          | none => simpa [elimLoop] using ih rest
          | some c1 =>
              simp only [elimLoop, List.filterMap_cons, List.map_cons]
              exact List.Sublist.cons₂ (f c1)
                ((ih (innerPass E k c1 rest)).trans
                  (innerPass_fm_map_sublist E k c1 f hf rest))

/-- Mapping `some` and then dropping `none`s is the identity. -/
theorem fm_map_some {G : Type} (l : List (Conf G)) :
    (l.map some).filterMap id = l := by
  induction l with
  | nil => rfl
  | cons c rest ih => simp [ih]

/-- Any projection untouched by alignment maps the deduplicated conformer
list to a sublist of the one it started from: survivors keep their
relative order (and their non-geometry data). -/
theorem eliminate_fm_map_sublist {G : Type} {α : Type} (E : Engine G) (k : ℚ)
    (f : Conf G → α) (hf : ∀ a b : Conf G, f (align_to_me E a b) = f b)
    (l : List (Conf G)) :
    ((eliminate_structurally_similar_conformers E k l).map f).Sublist (l.map f) := by
  unfold eliminate_structurally_similar_conformers
  have h := elimLoop_fm_map_sublist E k f hf l.length (l.map some)
  rwa [fm_map_some] at h

/-- The first live entry is unchanged by the outer loop. -/
theorem elimLoop_fm_head {G : Type} (E : Engine G) (k : ℚ) :
    ∀ (n : ℕ) (l : List (Option (Conf G))),
      ((elimLoop E k n l).filterMap id).head? = (l.filterMap id).head? := by
  intro n
  induction n with
  | zero => intro l; rfl
  | succ n ih =>
      intro l
      cases l with
      | nil => rfl
      | cons o rest =>
          cases o with
          | none => simpa [elimLoop] using ih rest
          | some c1 => simp [elimLoop]

/-- The first survivor of an inner pass was compared against `c1` (in its
aligned form, which is how it remains in the list) and found farther than
the cutoff. -/
theorem innerPass_fm_head_rmsd {G : Type} (E : Engine G) (k : ℚ) (c1 : Conf G) :
    ∀ (l : List (Option (Conf G))) (b : Conf G),
      ((innerPass E k c1 l).filterMap id).head? = some b → k < rmsd_to_me E c1 b := by
  intro l
  induction l with
  | nil => intro b h; simp [innerPass] at h
  | cons o rest ih =>
      cases o with
      | none =>
          intro b h
          exact ih b (by simpa [innerPass] using h)
      | some c2 =>
          intro b h
          by_cases hr : rmsd_to_me E c1 (align_to_me E c1 c2) ≤ k
          · refine ih b ?_
            simpa [innerPass, if_pos hr] using h
          · have hb : align_to_me E c1 c2 = b := by
              simpa [innerPass, if_neg hr] using h
            rw [← hb]
            exact lt_of_not_le hr

/-- Consecutive survivors of the deduplication loop are farther apart
than the cutoff: each survivor's final geometry is the one aligned onto
(and compared against) its surviving predecessor. -/
theorem elimLoop_fm_chain' {G : Type} (E : Engine G) (k : ℚ) :
    ∀ (n : ℕ) (l : List (Option (Conf G))), l.length ≤ n →
      ((elimLoop E k n l).filterMap id).Chain' (fun a b => k < rmsd_to_me E a b) := by
  intro n
  induction n with
  | zero =>
      intro l hl
      have : l = [] := List.length_eq_zero.mp (Nat.le_zero.mp hl)
      subst this
      simp [elimLoop]
  | succ n ih =>
      intro l hl
      cases l with
      | nil => simp [elimLoop]
      | cons o rest =>
          have hrest : rest.length ≤ n := Nat.le_of_succ_le_succ (by simpa using hl)
          cases o with
          | none => simpa [elimLoop] using ih rest hrest
          | some c1 =>
              simp only [elimLoop, List.filterMap_cons, id_eq]
              rw [List.chain'_cons']
              constructor
              · intro b hb
                have hb' : ((innerPass E k c1 rest).filterMap id).head? = some b := by
                  rw [← elimLoop_fm_head E k n (innerPass E k c1 rest)]
                  exact Option.mem_def.mp hb
                exact innerPass_fm_head_rmsd E k c1 rest b hb'
              · exact ih (innerPass E k c1 rest)
                  (by rw [innerPass_length]; exact hrest)

/-- The deduplicated conformer list has consecutive RMSDs above the
cutoff. -/
theorem eliminate_chain' {G : Type} (E : Engine G) (k : ℚ) (l : List (Conf G)) :
    (eliminate_structurally_similar_conformers E k l).Chain'
      (fun a b => k < rmsd_to_me E a b) := by
  unfold eliminate_structurally_similar_conformers
  exact elimLoop_fm_chain' E k l.length (l.map some) (by simp)

/-! ## Claim C2 -/

/-- Counterexample to claim C2: with three conformers, the third survivor
is last realigned onto the second, which moves it (under this engine's
geometry-dependent RMSD, as with rdkit's `prealigned=True` RMS) back
within the cutoff of the first survivor — so two retained conformers end
up with RMSD ≤ the cutoff even though every pair was checked once.  The
survivors' final geometries are `0`, `11` and `22`, and the first/third
pair has RMSD `0 ≤ 0`. -/
theorem C2_counterexample :
    (eliminate_structurally_similar_conformers EngAlign 0
        [⟨0, "a", 1, false, []⟩, ⟨1, "b", 2, false, []⟩, ⟨2, "c", 3, false, []⟩]).map
        (fun c => c.mol) = [0, 11, 22] ∧
    rmsd_to_me EngAlign ⟨0, "a", 1, false, []⟩ ⟨22, "c", 3, false, []⟩ ≤ 0 ∧
    ¬ ((eliminate_structurally_similar_conformers EngAlign 0
        [⟨0, "a", 1, false, []⟩, ⟨1, "b", 2, false, []⟩, ⟨2, "c", 3, false, []⟩]).Pairwise
        (fun a b => (0 : ℚ) < rmsd_to_me EngAlign a b)) :=
  ⟨by decide, by decide, by decide⟩

/-- Claim C2 as amended: after `eliminate_structurally_similar_conformers`
(and hence after `add_conformers`, which ends with it) the survivors keep
their prior relative order — their non-geometry data maps to a sublist of
the input's — and every survivor is farther than the cutoff from its
surviving predecessor, against which it was last aligned and compared.
The all-pairs version fails (see the counterexample) because a later
realignment can move a conformer after a pair was checked. -/
theorem C2_dedup_order_and_consecutive {G : Type} (E : Engine G) (k : ℚ)
    (l : List (Conf G)) (g : G) (smi : String) (num : ℕ) (minimize : Bool) :
    ((eliminate_structurally_similar_conformers E k l).map
        (fun c => (c.smiles, c.energy, c.minimized, c.ids_hvy_atms))).Sublist
      (l.map (fun c => (c.smiles, c.energy, c.minimized, c.ids_hvy_atms))) ∧
    (eliminate_structurally_similar_conformers E k l).Chain'
      (fun a b => k < rmsd_to_me E a b) ∧
    (add_conformers E g smi num k minimize l).Chain'
      (fun a b => k < rmsd_to_me E a b) := by
  refine ⟨eliminate_fm_map_sublist E k
    (fun c => (c.smiles, c.energy, c.minimized, c.ids_hvy_atms)) (fun a b => rfl) l,
    eliminate_chain' E k l, ?_⟩
  exact eliminate_chain' E k _

/-! ## Claim C3 -/

/-- Claim C3: after every `add_conformers` call — any target count,
cutoff and minimize flag — the conformer list is sorted by non-decreasing
energy: the list is sorted after the explicit sort, and deduplication
only removes entries (alignment does not touch energies), which preserves
sortedness. -/
theorem C3_sorted_by_energy {G : Type} (E : Engine G) (g : G) (smi : String)
    (num : ℕ) (k : ℚ) (minimize : Bool) (confs : List (Conf G)) :
    (add_conformers E g smi num k minimize confs).Pairwise energyLe := by
  have key : ∀ l2 : List (Conf G),
      (eliminate_structurally_similar_conformers E k (sortByEnergy l2)).Pairwise energyLe := by
    intro l2
    have h1 : ((sortByEnergy l2).map (fun c => c.energy)).Pairwise (fun a b => a ≤ b) :=
      List.pairwise_map.mpr (List.sorted_insertionSort energyLe l2)
    have h2 := eliminate_fm_map_sublist E k (fun c => c.energy) (fun a b => rfl)
      (sortByEnergy l2)
    exact (@List.pairwise_map (Conf G) ℚ (fun c => c.energy) (fun a b => a ≤ b)
      (eliminate_structurally_similar_conformers E k (sortByEnergy l2))).mp
      (List.Pairwise.sublist h2 h1)
  exact key _

/-! ## Claim C6 -/

/-- Unfolding one iteration of the while loop. -/
theorem fixLoop_succ {G : Type} (E : Engine G) (f : ℕ) (m : G) :
    fixLoop E (f + 1) m =
      (match fixPassStep E m (E.molToSmiles m) with
       | Except.error _ => FixRes.raised
       | Except.ok m' =>
           if E.molToSmiles m' = E.molToSmiles m then FixRes.done m'
           else fixLoop E f m') := rfl

/-- One loop iteration after a successful pass. -/
theorem fixLoop_succ_ok {G : Type} (E : Engine G) (f : ℕ) (m m1 : G)
    (hp : fixPassStep E m (E.molToSmiles m) = Except.ok m1) :
    fixLoop E (f + 1) m =
      if E.molToSmiles m1 = E.molToSmiles m then FixRes.done m1
      else fixLoop E f m1 := by
  rw [fixLoop_succ, hp]

/-- Splitting one successful pass off the front of an iterated repair
run. -/
theorem fixPassIter_succ {G : Type} (E : Engine G) (n : ℕ) (m m1 : G)
    (h : fixPass1 E m = Except.ok m1) :
    fixPassIter E (n + 1) m = fixPassIter E n m1 := by
  rw [show fixPassIter E (n + 1) m =
    (match fixPass1 E m with
     | Except.error e => Except.error e
     | Except.ok m' => fixPassIter E n m') from rfl, h]

/-- If the canonical form stabilizes after some pass, the while loop of
`fix_common_errors` exits within that many passes. -/
theorem fixLoop_done_of_stab {G : Type} (E : Engine G) :
    ∀ (n : ℕ) (m mn mn1 : G), fixPassIter E n m = Except.ok mn →
      fixPass1 E mn = Except.ok mn1 → E.molToSmiles mn1 = E.molToSmiles mn →
      ∀ fuel, n + 1 ≤ fuel → ∃ m', fixLoop E fuel m = FixRes.done m' := by
  intro n
  induction n with
  | zero =>
      intro m mn mn1 h0 hp hs fuel hf
      have hm : mn = m := by
        unfold fixPassIter at h0
        injection h0 with h0
        exact h0.symm
      subst hm
      obtain ⟨f, rfl⟩ : ∃ f, fuel = f + 1 := ⟨fuel - 1, by omega⟩
      refine ⟨mn1, ?_⟩
      rw [fixLoop_succ_ok E f mn mn1 hp, if_pos hs]
  | succ n ih =>
      intro m mn mn1 h0 hp hs fuel hf
      cases hp1 : fixPass1 E m with
      | error e =>
          exfalso
          rw [show fixPassIter E (n + 1) m =
            (match fixPass1 E m with
             | Except.error e => Except.error e
             | Except.ok m' => fixPassIter E n m') from rfl, hp1] at h0
          exact absurd h0 (by simp)
      | ok m1 =>
          have h0' : fixPassIter E n m1 = Except.ok mn := by
            rw [← fixPassIter_succ E n m m1 hp1]
            exact h0
          obtain ⟨f, rfl⟩ : ∃ f, fuel = f + 1 := ⟨fuel - 1, by omega⟩
          by_cases hstop : E.molToSmiles m1 = E.molToSmiles m
          · refine ⟨m1, ?_⟩
            rw [fixLoop_succ_ok E f m m1 hp1, if_pos hstop]
          · obtain ⟨m', hm'⟩ := ih m1 mn mn1 h0' hp hs f (by omega)
            refine ⟨m', ?_⟩
            rw [fixLoop_succ_ok E f m m1 hp1, if_neg hstop]
            exact hm'

/-- A loop that exited produced its final graph by one pass from a graph
with the same canonical form. -/
theorem fixLoop_done_inv {G : Type} (E : Engine G) :
    ∀ (fuel : ℕ) (m m' : G), fixLoop E fuel m = FixRes.done m' →
      ∃ mk, fixPass1 E mk = Except.ok m' ∧ E.molToSmiles m' = E.molToSmiles mk := by
  intro fuel
  induction fuel with
  | zero =>
      intro m m' h
      exact absurd h (by simp [fixLoop])
  | succ f ih =>
      intro m m' h
      cases hp : fixPassStep E m (E.molToSmiles m) with
      | error e =>
          rw [fixLoop_succ, hp] at h
          exact absurd h (by simp)
      | ok m1 =>
          rw [fixLoop_succ_ok E f m m1 hp] at h
          by_cases hstop : E.molToSmiles m1 = E.molToSmiles m
          · rw [if_pos hstop] at h
            injection h with hh
            subst hh
            exact ⟨m, hp, hstop⟩
          · rw [if_neg hstop] at h
            exact ih m1 m' h

/-- Running `fix_common_errors` again right after it finished changes
nothing: provided canonically-equal graphs respond canonically-equally to
one repair pass, the rerun's first pass leaves the canonical form
unchanged and the loop exits at once. -/
theorem fixLoop_rerun {G : Type} (E : Engine G)
    (hcoh : ∀ a b, E.molToSmiles a = E.molToSmiles b →
      (fixPass1 E a).map E.molToSmiles = (fixPass1 E b).map E.molToSmiles) :
    ∀ (fuel : ℕ) (m m' : G), fixLoop E fuel m = FixRes.done m' →
      ∀ f, ∃ m'', fixLoop E (f + 1) m' = FixRes.done m'' ∧
        E.molToSmiles m'' = E.molToSmiles m' := by
  intro fuel m m' h f
  obtain ⟨mk, hpk, hsk⟩ := fixLoop_done_inv E fuel m m' h
  have hmap := hcoh m' mk hsk
  rw [hpk] at hmap
  cases hp' : fixPass1 E m' with
  | error e =>
      rw [hp'] at hmap
      exact absurd hmap (by simp [Except.map])
  | ok m'' =>
      rw [hp'] at hmap
      simp only [Except.map] at hmap
      have hss : E.molToSmiles m'' = E.molToSmiles m' := by
        injection hmap with hmap
      refine ⟨m'', ?_, hss⟩
      rw [fixLoop_succ_ok E f m' m'' hp', if_pos hss]

/-- Claim C6 as amended: `fix_common_errors` fails immediately on an
invalid graph; its loop terminates precisely when the canonical form
stabilizes between consecutive passes (the source places no other bound
on the loop, see the counterexample for non-stabilizing engines); and,
provided canonically-equal graphs respond canonically-equally to a repair
pass, rerunning immediately after a finished run terminates on its first
pass with no further canonical-form change. -/
theorem C6_fix_loop_behavior {G : Type} (E : Engine G) :
    (∀ fuel, fix_common_errors E fuel RdMol.failed = FixRes.invalid) ∧
    (∀ (n : ℕ) (m mn mn1 : G) (fuel : ℕ), fixPassIter E n m = Except.ok mn →
      fixPass1 E mn = Except.ok mn1 → E.molToSmiles mn1 = E.molToSmiles mn →
      n + 1 ≤ fuel → ∃ m', fix_common_errors E fuel (RdMol.mol m) = FixRes.done m') ∧
    ((∀ a b, E.molToSmiles a = E.molToSmiles b →
        (fixPass1 E a).map E.molToSmiles = (fixPass1 E b).map E.molToSmiles) →
      ∀ (fuel : ℕ) (m m' : G), fix_common_errors E fuel (RdMol.mol m) = FixRes.done m' →
        ∀ f, ∃ m'', fix_common_errors E (f + 1) (RdMol.mol m') = FixRes.done m'' ∧
          E.molToSmiles m'' = E.molToSmiles m') := by
  refine ⟨fun fuel => rfl, ?_, ?_⟩
  · intro n m mn mn1 fuel h0 hp hs hf
    exact fixLoop_done_of_stab E n m mn mn1 h0 hp hs fuel hf
  · intro hcoh fuel m m' h f
    exact fixLoop_rerun E hcoh fuel m m' h f

/-- Witness for C6's amended statement on a concrete engine whose single
pass is the identity and whose canonicalizer is constant. -/
theorem C6_fix_loop_behavior_witness :
    fix_common_errors EngNat 3 RdMol.failed = FixRes.invalid ∧
    fixLoop EngNat 1 (5 : ℕ) ≠ FixRes.diverged := by
  have T := C6_fix_loop_behavior EngNat
  refine ⟨T.1 3, ?_⟩
  obtain ⟨m', hm'⟩ := T.2.1 0 (5 : ℕ) 5 5 1 rfl rfl rfl le_rfl
  have : fix_common_errors EngNat 1 (RdMol.mol (5 : ℕ)) = fixLoop EngNat 1 (5 : ℕ) := rfl
  rw [← this, hm']
  intro hc
  cases hc

/-- A helper for the C6 counterexample: on `EngFlip` every pass flips the
graph and flips the canonical form with it, so the loop never exits. -/
theorem fixFlip_loop_diverges : ∀ (fuel : ℕ) (b : Bool),
    fixLoop EngFlip fuel b = FixRes.diverged := by
  intro fuel
  induction fuel with
  | zero => intro b; rfl
  | succ f ih =>
      intro b
      have hp : fixPassStep EngFlip b (EngFlip.molToSmiles b) = Except.ok (!b) := by
        cases b <;> rfl
      have hne : ¬ (EngFlip.molToSmiles (!b) = EngFlip.molToSmiles b) := by
        cases b <;> decide
      rw [fixLoop_succ_ok EngFlip f b (!b) hp, if_neg hne]
      exact ih (!b)

/-- Counterexample to claim C6's "terminates for every input": on an
engine whose repair pass keeps flipping the canonical form (which nothing
in the source rules out — the loop has no pass bound), `fix_common_errors`
on a valid graph runs forever: the canonical form never stabilizes and no
amount of allotted passes reaches the exit condition. -/
theorem C6_counterexample :
    fixDiverges EngFlip true ∧
    fix_common_errors EngFlip 1000 (RdMol.mol true) = FixRes.diverged ∧
    ¬ fixStabilizes EngFlip true := by
  refine ⟨fun fuel => fixFlip_loop_diverges fuel true, fixFlip_loop_diverges 1000 true, ?_⟩
  rintro ⟨n, mn, mn1, h1, h2, h3⟩
  have hpass : fixPass1 EngFlip mn = Except.ok (!mn) := by cases mn <;> rfl
  rw [hpass] at h2
  injection h2 with h2
  subst h2
  revert h3
  cases mn <;> decide

end Gypsum
